import Mathlib

/-!
Verification of the trie storage manager (`trieStorageManager` in the Go
source) against its natural-language specification.  The Go code is shallowly
embedded: persisters become records of pure functions with an explicit close
counter, the manager's mutable fields become a Lean structure, and each Go
method becomes a state-passing Lean function that mirrors the method's control
flow statement by statement.  `uint32` arithmetic is `Nat` taken `% 2 ^ 32`
where overflow can occur; Go's `(value, error)` pairs become `α × Option ε`.
-/

namespace TrieStorage

/-- Raw byte strings (keys, values, hashes), one `Nat` per byte. -/
abbrev Bytes := List Nat

/-- Opaque payload of an error produced by a persister; the manager never
inspects it, so a bare `Nat` tag suffices. -/
abbrev PersisterErr := Nat

/-- A persister (`common.DBWriteCacher`): its current contents, the error it
reports alongside each read, the error each successive `Close` call returns,
and how many times `Close` has been invoked on it. -/
structure Persister where
  store : Bytes → Bytes
  getErr : Bytes → Option PersisterErr
  closeErrs : Nat → Option PersisterErr
  closeCount : Nat

namespace Persister

/-- `Get` returns the stored value (empty list = absent) with the read error. -/
def Get (p : Persister) (key : Bytes) : Bytes × Option PersisterErr :=
  (p.store key, p.getErr key)

/-- `Put` stores the value under the key; the model storer is faithful, so a
subsequent read of that key yields the value with no error. -/
def Put (p : Persister) (key val : Bytes) : Persister :=
  { p with
    store := fun k => if k = key then val else p.store k
    getErr := fun k => if k = key then none else p.getErr k }

/-- `Close` bumps the close counter and reports this call's close error. -/
def Close (p : Persister) : Persister × Option PersisterErr :=
  ({ p with closeCount := p.closeCount + 1 }, p.closeErrs p.closeCount)

/-- The error the next `Close` call on this persister would return. -/
def nextCloseErr (p : Persister) : Option PersisterErr :=
  p.closeErrs p.closeCount

end Persister

/-- An entry of the snapshot/checkpoint request queues
(`snapshotsQueueEntry`); the leaves channel is tracked only through its
nil-ness, since the manager merely closes it. -/
structure snapshotsQueueEntry where
  rootHash : Bytes
  newDb : Bool
  hasLeavesChan : Bool

/-- Errors that `Get` could return.  The Go signature allows any error to
escape, so the type has room for a forwarded persister error; the theorems
show the code only ever produces `ErrKeyNotFound`. -/
inductive TrieGetErr where
  | ErrKeyNotFound : TrieGetErr
  | forwarded : PersisterErr → TrieGetErr
deriving DecidableEq

/-- The observable state of a `trieStorageManager`: the four storer groups,
the pruning-block counter (`uint32`), the closed flag, the safe closer's
state, the two request queues, logs of the checkpoint-hashes-holder mutations
the manager performs, and a count of error-severity log lines. -/
structure trieStorageManager where
  mainStorer : Persister
  db : Persister
  checkpointsStorer : Persister
  snapshots : List Persister
  pruningBlockingOps : Nat
  closed : Bool
  closerFired : Bool
  closerFireCount : Nat
  cancelCount : Nat
  snapshotReq : List snapshotsQueueEntry
  checkpointReq : List snapshotsQueueEntry
  removeCommittedLog : List Bytes
  holderRemoveLog : List Bytes
  errorLogCount : Nat

/-- Modelled from the spec: the empty-trie sentinel (`EmptyTrieHash`), a fixed
hash value defined outside the provided sources; the manager only compares
root hashes against it, so its concrete bytes are irrelevant. -/
def EmptyTrieHash : Bytes := List.replicate 32 0

namespace trieStorageManager

/-- The Go loop `for i := len(snapshots)-1; i >= 0; i--` returning the first
non-empty value: later (newer) snapshots are consulted before earlier ones,
so the recursion tries the tail of the list first. -/
def snapshotsGetLoop : List Persister → Bytes → Option Bytes
  | [], _ => none
  | s :: rest, key =>
    match snapshotsGetLoop rest key with
    | some v => some v
    | none => if ((s.Get key).1).length ≠ 0 then some (s.Get key).1 else none

/-- `getFromOtherStorers`: legacy `db`, then checkpoints storer, then the
snapshot databases newest first; per-layer errors are discarded (`val, _ :=`),
and exhaustion yields `ErrKeyNotFound`. -/
def getFromOtherStorers (tsm : trieStorageManager) (key : Bytes) :
    Bytes × Option TrieGetErr :=
  if ((tsm.db.Get key).1).length ≠ 0 then ((tsm.db.Get key).1, none)
  else if ((tsm.checkpointsStorer.Get key).1).length ≠ 0 then
    ((tsm.checkpointsStorer.Get key).1, none)
  else
    match snapshotsGetLoop tsm.snapshots key with
    | some v => (v, none)
    | none => ([], some .ErrKeyNotFound)

/-- `Get` checks the main storer first and falls back to the other storers. -/
def Get (tsm : trieStorageManager) (key : Bytes) : Bytes × Option TrieGetErr :=
  if ((tsm.mainStorer.Get key).1).length ≠ 0 then ((tsm.mainStorer.Get key).1, none)
  else tsm.getFromOtherStorers key

/-- `Put` writes only to the main storer. -/
def Put (tsm : trieStorageManager) (key val : Bytes) : trieStorageManager :=
  { tsm with mainStorer := tsm.mainStorer.Put key val }

end trieStorageManager

/-- Spec-side definition: the layer order stated by the specification — main
storer, legacy storer, checkpoints storer, then snapshots newest to oldest. -/
def lookupLayers (tsm : trieStorageManager) : List Persister :=
  tsm.mainStorer :: tsm.db :: tsm.checkpointsStorer :: tsm.snapshots.reverse

/-- Spec-side definition: the first non-empty value any layer of the list
returns, per-layer errors ignored. -/
def firstNonEmptyValue : List Persister → Bytes → Option Bytes
  | [], _ => none
  | p :: rest, key =>
    if ((p.Get key).1).length ≠ 0 then some (p.Get key).1
    else firstNonEmptyValue rest key

/-- Spec-side definition of `Get`: first non-empty value in layer order,
`ErrKeyNotFound` when every layer is empty. -/
def specGet (tsm : trieStorageManager) (key : Bytes) : Bytes × Option TrieGetErr :=
  match firstNonEmptyValue (lookupLayers tsm) key with
  | some v => (v, none)
  | none => ([], some .ErrKeyNotFound)

theorem firstNonEmptyValue_append (a b : List Persister) (key : Bytes) :
    firstNonEmptyValue (a ++ b) key =
      match firstNonEmptyValue a key with
      | some v => some v
      | none => firstNonEmptyValue b key := by
  induction a with
  | nil => simp [firstNonEmptyValue]
  | cons p rest ih =>
    simp only [List.cons_append, firstNonEmptyValue]
    by_cases h : ((p.Get key).1).length ≠ 0
    · simp [h]
    · simp [h, ih]

theorem snapshotsGetLoop_eq_firstNonEmptyValue_reverse
    (snaps : List Persister) (key : Bytes) :
    trieStorageManager.snapshotsGetLoop snaps key =
      firstNonEmptyValue snaps.reverse key := by
  induction snaps with
  | nil => rfl
  | cons s rest ih =>
    simp only [trieStorageManager.snapshotsGetLoop, List.reverse_cons,
      firstNonEmptyValue_append, ih]
    cases firstNonEmptyValue rest.reverse key with
    | none => simp [firstNonEmptyValue]
    | some v => rfl

/-- C1: `Get` consults the storers in the exact order main, legacy,
checkpoints, then snapshots newest to oldest, returning the first non-empty
value found with per-layer errors ignored, and returns `ErrKeyNotFound` when
every layer yields an empty value: the code's `Get` coincides with the
spec-side lookup over `lookupLayers`. -/
theorem get_consults_layers_in_order (tsm : trieStorageManager) (key : Bytes) :
    tsm.Get key = specGet tsm key := by
  simp only [trieStorageManager.Get, trieStorageManager.getFromOtherStorers,
    specGet, lookupLayers, firstNonEmptyValue,
    snapshotsGetLoop_eq_firstNonEmptyValue_reverse]
  by_cases h1 : ((tsm.mainStorer.Get key).1).length ≠ 0
  · simp [h1]
  · by_cases h2 : ((tsm.db.Get key).1).length ≠ 0
    · simp [h1, h2]
    · by_cases h3 : ((tsm.checkpointsStorer.Get key).1).length ≠ 0
      · simp [h1, h2, h3]
      · simp [h1, h2, h3]

/-- A persister with every read error erased (used to show `Get` never looks
at the error component any layer reports). -/
def Persister.eraseGetErr (p : Persister) : Persister :=
  { p with getErr := fun _ => none }

/-- The manager with every layer's read errors erased. -/
def eraseGetErrs (tsm : trieStorageManager) : trieStorageManager :=
  { tsm with
    mainStorer := tsm.mainStorer.eraseGetErr
    db := tsm.db.eraseGetErr
    checkpointsStorer := tsm.checkpointsStorer.eraseGetErr
    snapshots := tsm.snapshots.map Persister.eraseGetErr }

theorem snapshotsGetLoop_eraseGetErr (snaps : List Persister) (key : Bytes) :
    trieStorageManager.snapshotsGetLoop (snaps.map Persister.eraseGetErr) key =
      trieStorageManager.snapshotsGetLoop snaps key := by
  induction snaps with
  | nil => rfl
  | cons s rest ih =>
    simp [trieStorageManager.snapshotsGetLoop, ih, Persister.Get,
      Persister.eraseGetErr]

/-- C10: `Get` never returns both a value and an error — every result is
either a value with `none` or `([], ErrKeyNotFound)`; the result never
depends on the error component any persister reports; and a layer returning a
non-empty value together with an error is treated as a successful hit. -/
theorem get_never_value_and_error (tsm : trieStorageManager) (key : Bytes) :
    ((tsm.Get key).2 = none ∨ tsm.Get key = ([], some .ErrKeyNotFound)) ∧
    tsm.Get key = (eraseGetErrs tsm).Get key ∧
    (((tsm.mainStorer.store key).length ≠ 0 →
      tsm.Get key = (tsm.mainStorer.store key, none))) := by
  refine ⟨?_, ?_, ?_⟩
  · simp only [trieStorageManager.Get, trieStorageManager.getFromOtherStorers]
    by_cases h1 : ((tsm.mainStorer.Get key).1).length ≠ 0
    · simp [h1]
    · by_cases h2 : ((tsm.db.Get key).1).length ≠ 0
      · simp [h1, h2]
      · by_cases h3 : ((tsm.checkpointsStorer.Get key).1).length ≠ 0
        · simp [h1, h2, h3]
        · simp only [h1, h2, h3, ite_false]
          cases trieStorageManager.snapshotsGetLoop tsm.snapshots key with
          | none => simp
          | some v => simp
  · simp [trieStorageManager.Get, trieStorageManager.getFromOtherStorers,
      eraseGetErrs, Persister.eraseGetErr, Persister.Get,
      snapshotsGetLoop_eraseGetErr]
  · intro h
    simp [trieStorageManager.Get, Persister.Get, h]

/-- Witness for `get_never_value_and_error` at a concrete manager whose main
storer reports value `[7]` together with a read error for key `[1]`. -/
def emptyPersister : Persister :=
  { store := fun _ => [], getErr := fun _ => none
    closeErrs := fun _ => none, closeCount := 0 }

/-- A concrete manager every storer of which is empty and error-free. -/
def tsmEmpty : trieStorageManager :=
  { mainStorer := emptyPersister, db := emptyPersister
    checkpointsStorer := emptyPersister, snapshots := []
    pruningBlockingOps := 0, closed := false
    closerFired := false, closerFireCount := 0, cancelCount := 0
    snapshotReq := [], checkpointReq := []
    removeCommittedLog := [], holderRemoveLog := [], errorLogCount := 0 }

/-- A manager whose main storer returns the non-empty value `[7]` together
with a non-nil error for every key. -/
def tsmErroringMain : trieStorageManager :=
  { tsmEmpty with
    mainStorer :=
      { store := fun _ => [7], getErr := fun _ => some 3
        closeErrs := fun _ => none, closeCount := 0 } }

theorem get_never_value_and_error_witness :
    (([7] : Bytes).length ≠ 0) ∧
      tsmErroringMain.Get [1] = ([7], none) :=
  ⟨by decide, (get_never_value_and_error tsmErroringMain [1]).2.2 (by decide)⟩

/-- C3 counterexample: `Put` of the empty value followed by `Get` does not
return that value with a nil error — the `len(val) != 0` test skips the
stored empty value and the lookup falls through to `ErrKeyNotFound`. -/
theorem put_get_empty_value_counterexample :
    (tsmEmpty.Put [1] []).Get [1] ≠ (([] : Bytes), (none : Option TrieGetErr)) := by
  decide

/-- C3 (amended): for every key and every non-empty value, `Put(k,v)` followed
by `Get(k)` with no intervening `Remove(k)` returns `v` with no error. -/
theorem put_then_get_nonempty (tsm : trieStorageManager) (k v : Bytes)
    (h : v ≠ []) : (tsm.Put k v).Get k = (v, none) := by
  have hv : v.length ≠ 0 := fun hc => h (List.length_eq_zero.mp hc)
  simp [trieStorageManager.Put, trieStorageManager.Get, Persister.Put,
    Persister.Get, hv]

/-- Witness for `put_then_get_nonempty` at key `[1]`, value `[2]`. -/
theorem put_then_get_nonempty_witness :
    (([2] : Bytes) ≠ []) ∧ (tsmEmpty.Put [1] [2]).Get [1] = ([2], none) :=
  ⟨by decide, put_then_get_nonempty tsmEmpty [1] [2] (by decide)⟩

/-- The modulus of the `uint32` field `pruningBlockingOps`. -/
def uint32Mod : Nat := 2 ^ 32

namespace trieStorageManager

/-- `EnterPruningBufferingMode`: `tsm.pruningBlockingOps++` on a `uint32`,
so the increment is taken modulo `2 ^ 32`. -/
def EnterPruningBufferingMode (tsm : trieStorageManager) : trieStorageManager :=
  { tsm with pruningBlockingOps := (tsm.pruningBlockingOps + 1) % uint32Mod }

/-- `ExitPruningBufferingMode`: when the counter is below one, log an error
("called too many times") and return; otherwise decrement. -/
def ExitPruningBufferingMode (tsm : trieStorageManager) : trieStorageManager :=
  if tsm.pruningBlockingOps < 1 then
    { tsm with errorLogCount := tsm.errorLogCount + 1 }
  else
    { tsm with pruningBlockingOps := tsm.pruningBlockingOps - 1 }

/-- `IsPruningBlocked` returns whether the counter is non-zero. -/
def IsPruningBlocked (tsm : trieStorageManager) : Bool :=
  tsm.pruningBlockingOps != 0

/-- `isClosed` reads the closed flag. -/
def isClosed (tsm : trieStorageManager) : Bool := tsm.closed

end trieStorageManager

/-- `safelyCloseChan`: the number of `close` operations performed on the
supplied leaves channel (one when it is non-nil, zero otherwise). -/
def safelyCloseChan (hasChan : Bool) : Nat := if hasChan then 1 else 0

namespace trieStorageManager

/-- `TakeSnapshot`.  The final Go `select` races the queue send against the
closer signal; the race is external nondeterminism, injected as `closerWins`
(only relevant when the closer has fired).  The second component of the
result counts the `close` operations performed on the caller's channel. -/
def TakeSnapshot (tsm : trieStorageManager) (rootHash : Bytes) (newDb : Bool)
    (hasLeavesChan : Bool) (closerWins : Bool) : trieStorageManager × Nat :=
  if tsm.isClosed then (tsm, safelyCloseChan hasLeavesChan)
  else if rootHash = EmptyTrieHash then (tsm, safelyCloseChan hasLeavesChan)
  else
    let tsm1 := tsm.EnterPruningBufferingMode
    let tsm2 := { tsm1 with removeCommittedLog := tsm1.removeCommittedLog ++ [rootHash] }
    if tsm2.closerFired && closerWins then
      (tsm2.ExitPruningBufferingMode, safelyCloseChan hasLeavesChan)
    else
      ({ tsm2 with snapshotReq := tsm2.snapshotReq ++ [⟨rootHash, newDb, hasLeavesChan⟩] }, 0)

/-- `SetCheckpoint`: same shape as `TakeSnapshot` but on the checkpoint
queue, with `newDb = false` and without the `RemoveCommitted` step. -/
def SetCheckpoint (tsm : trieStorageManager) (rootHash : Bytes)
    (hasLeavesChan : Bool) (closerWins : Bool) : trieStorageManager × Nat :=
  if tsm.isClosed then (tsm, safelyCloseChan hasLeavesChan)
  else if rootHash = EmptyTrieHash then (tsm, safelyCloseChan hasLeavesChan)
  else
    let tsm1 := tsm.EnterPruningBufferingMode
    if tsm1.closerFired && closerWins then
      (tsm1.ExitPruningBufferingMode, safelyCloseChan hasLeavesChan)
    else
      ({ tsm1 with checkpointReq := tsm1.checkpointReq ++ [⟨rootHash, false, hasLeavesChan⟩] }, 0)

end trieStorageManager

/-- C6 counterexample: at the maximal `uint32` counter value the increment in
`EnterPruningBufferingMode` wraps to zero and `ExitPruningBufferingMode` then
saturates, so Enter followed by Exit does not restore the original counter. -/
theorem enter_exit_wraparound_counterexample :
    ({ tsmEmpty with pruningBlockingOps := 4294967295 }.EnterPruningBufferingMode.ExitPruningBufferingMode).pruningBlockingOps ≠ 4294967295 := by
  decide

/-- C6 (amended): Enter increments the counter by one modulo `2 ^ 32`; Exit
decrements a positive counter and, at zero, leaves it at zero while logging an
error; hence Enter then Exit restores every starting counter whose increment
does not overflow (every `uint32` value except `2 ^ 32 - 1`); and
`IsPruningBlocked` is true exactly when the counter is non-zero. -/
theorem pruning_counter_ops (tsm : trieStorageManager) :
    (tsm.EnterPruningBufferingMode.pruningBlockingOps
        = (tsm.pruningBlockingOps + 1) % uint32Mod) ∧
    (tsm.pruningBlockingOps + 1 < uint32Mod →
      (tsm.EnterPruningBufferingMode.ExitPruningBufferingMode).pruningBlockingOps
        = tsm.pruningBlockingOps) ∧
    (tsm.pruningBlockingOps = 0 →
      tsm.ExitPruningBufferingMode.pruningBlockingOps = 0 ∧
      tsm.ExitPruningBufferingMode.errorLogCount = tsm.errorLogCount + 1) ∧
    (0 < tsm.pruningBlockingOps →
      tsm.ExitPruningBufferingMode.pruningBlockingOps
        = tsm.pruningBlockingOps - 1) ∧
    (tsm.IsPruningBlocked = true ↔ tsm.pruningBlockingOps ≠ 0) := by
  refine ⟨rfl, ?_, ?_, ?_, ?_⟩
  · intro h
    have hm : (tsm.pruningBlockingOps + 1) % uint32Mod = tsm.pruningBlockingOps + 1 :=
      Nat.mod_eq_of_lt h
    simp [trieStorageManager.EnterPruningBufferingMode,
      trieStorageManager.ExitPruningBufferingMode, hm]
  · intro h
    simp [trieStorageManager.ExitPruningBufferingMode, h]
  · intro h
    have : ¬ tsm.pruningBlockingOps < 1 := by omega
    simp [trieStorageManager.ExitPruningBufferingMode, this]
  · simp [trieStorageManager.IsPruningBlocked]

/-- Witness for `pruning_counter_ops` at counter value 3. -/
theorem pruning_counter_ops_witness :
    (3 + 1 < uint32Mod) ∧
      ({ tsmEmpty with pruningBlockingOps := 3 }.EnterPruningBufferingMode.ExitPruningBufferingMode).pruningBlockingOps = 3 :=
  ⟨by decide, (pruning_counter_ops { tsmEmpty with pruningBlockingOps := 3 }).2.1 (by decide)⟩

/-- C5: a `TakeSnapshot` or `SetCheckpoint` call made while the manager is
closed, or whose root hash is the empty-trie sentinel, leaves the manager
state entirely unchanged (nothing enqueued, counter untouched, no
checkpoint-hashes-holder mutation) and closes the supplied leaves channel
exactly once when it is non-nil. -/
theorem submit_closed_or_sentinel_noop (tsm : trieStorageManager)
    (rootHash : Bytes) (newDb hasLeavesChan closerWins : Bool)
    (h : tsm.closed = true ∨ rootHash = EmptyTrieHash) :
    tsm.TakeSnapshot rootHash newDb hasLeavesChan closerWins
        = (tsm, if hasLeavesChan then 1 else 0) ∧
    tsm.SetCheckpoint rootHash hasLeavesChan closerWins
        = (tsm, if hasLeavesChan then 1 else 0) := by
  cases h with
  | inl h =>
    simp [trieStorageManager.TakeSnapshot, trieStorageManager.SetCheckpoint,
      trieStorageManager.isClosed, h, safelyCloseChan]
  | inr h =>
    by_cases hc : tsm.closed
    · simp [trieStorageManager.TakeSnapshot, trieStorageManager.SetCheckpoint,
        trieStorageManager.isClosed, hc, safelyCloseChan]
    · simp [trieStorageManager.TakeSnapshot, trieStorageManager.SetCheckpoint,
        trieStorageManager.isClosed, hc, h, safelyCloseChan]

/-- Witness for `submit_closed_or_sentinel_noop` on a closed manager with a
non-nil leaves channel. -/
theorem submit_closed_or_sentinel_noop_witness :
    ({ tsmEmpty with closed := true }.closed = true ∨ ([3] : Bytes) = EmptyTrieHash) ∧
      { tsmEmpty with closed := true }.TakeSnapshot [3] true true false
        = ({ tsmEmpty with closed := true }, 1) :=
  ⟨Or.inl rfl,
    (submit_closed_or_sentinel_noop { tsmEmpty with closed := true } [3] true true false
      (Or.inl rfl)).1⟩

/-- The close operations `Close` performs on owned persisters, in program
order. -/
inductive CloseEvent where
  | legacyDbClose : CloseEvent
  | snapshotClose : CloseEvent
  | mainStorerClose : CloseEvent
  | checkpointsStorerClose : CloseEvent
deriving DecidableEq

/-- The error `Close` returns: either a raw persister error or the
`fmt.Errorf("trieStorageManager close failed: %w", err)` wrapper around one. -/
inductive CloseErr where
  | persisterErr : PersisterErr → CloseErr
  | closeFailed : CloseErr → CloseErr
deriving DecidableEq

/-- The `for _, sdb := range tsm.snapshots` loop of `Close`: closes each
snapshot database in list order, collecting the per-database close errors and
emitting one close event per database. -/
def closeAllSnapshots : List Persister →
    List Persister × List (Option PersisterErr) × List CloseEvent
  | [] => ([], [], [])
  | p :: rest =>
    let r := closeAllSnapshots rest
    ((p.Close).1 :: r.1, (p.Close).2 :: r.2.1, .snapshotClose :: r.2.2)

/-- Go's error-overwrite chain: starting from the legacy storer's close error,
each subsequent non-nil error replaces the current one; nil results leave it
unchanged. -/
def goErrFold (init : Option PersisterErr) : List (Option PersisterErr) → Option PersisterErr
  | [] => init
  | e :: rest => goErrFold (match e with | some x => some x | none => init) rest

/-- The safe closer's `Close` (modelled from the spec: `core.SafeCloser` is
defined outside the provided sources; the spec describes it as a one-shot,
idempotent broadcast whose second invocation neither re-fires nor panics). -/
def safeCloserClose (tsm : trieStorageManager) : trieStorageManager :=
  if tsm.closerFired then tsm
  else { tsm with closerFired := true, closerFireCount := tsm.closerFireCount + 1 }

namespace trieStorageManager

/-- `Close`: cancel the worker, set the closed flag, close the legacy storer,
every snapshot database, the main storer and the checkpoints storer in that
order (logging each snapshot/main/checkpoints failure), keep the last non-nil
close error, fire the safe closer (deferred, hence last), and return the
wrapped error when any close failed.  Besides the new state it returns the
ordered list of close events and the returned error. -/
def Close (tsm : trieStorageManager) :
    trieStorageManager × List CloseEvent × Option CloseErr :=
  let tsm0 := { tsm with cancelCount := tsm.cancelCount + 1, closed := true }
  let dbErr := (tsm0.db.Close).2
  let snapRes := closeAllSnapshots tsm0.snapshots
  let mainErr := (tsm0.mainStorer.Close).2
  let ckErr := (tsm0.checkpointsStorer.Close).2
  let errAfterSnapshots := goErrFold dbErr snapRes.2.1
  let errAfterMain := match mainErr with | some e => some e | none => errAfterSnapshots
  let errFinal := match ckErr with | some e => some e | none => errAfterMain
  let errorLogs := (snapRes.2.1.filter Option.isSome).length
    + (if mainErr.isSome then 1 else 0) + (if ckErr.isSome then 1 else 0)
  let tsm1 := { tsm0 with
    db := (tsm0.db.Close).1
    snapshots := snapRes.1
    mainStorer := (tsm0.mainStorer.Close).1
    checkpointsStorer := (tsm0.checkpointsStorer.Close).1
    errorLogCount := tsm0.errorLogCount + errorLogs }
  (safeCloserClose tsm1,
    .legacyDbClose :: snapRes.2.2 ++ [.mainStorerClose, .checkpointsStorerClose],
    errFinal.map fun e => .closeFailed (.persisterErr e))

end trieStorageManager

theorem closeAllSnapshots_fst (l : List Persister) :
    (closeAllSnapshots l).1 = l.map fun p => (p.Close).1 := by
  induction l with
  | nil => rfl
  | cons p rest ih => simp [closeAllSnapshots, ih]

theorem closeAllSnapshots_errs (l : List Persister) :
    (closeAllSnapshots l).2.1 = l.map Persister.nextCloseErr := by
  induction l with
  | nil => rfl
  | cons p rest ih => simp [closeAllSnapshots, ih]; rfl

theorem closeAllSnapshots_events (l : List Persister) :
    (closeAllSnapshots l).2.2 = List.replicate l.length .snapshotClose := by
  induction l with
  | nil => rfl
  | cons p rest ih => simp [closeAllSnapshots, ih, List.replicate_succ]

theorem goErrFold_eq_none_iff (l : List (Option PersisterErr))
    (init : Option PersisterErr) :
    goErrFold init l = none ↔ init = none ∧ ∀ e ∈ l, e = none := by
  induction l generalizing init with
  | nil => simp [goErrFold]
  | cons e rest ih =>
    cases e with
    | none => simp [goErrFold, ih]
    | some x =>
      simp only [goErrFold, ih]
      constructor
      · rintro ⟨h, -⟩; exact absurd h (by simp)
      · rintro ⟨-, h⟩; exact absurd (h (some x) (by simp)) (by simp)

theorem safeCloserClose_db (t : trieStorageManager) :
    (safeCloserClose t).db = t.db := by
  unfold safeCloserClose; split <;> rfl

theorem safeCloserClose_mainStorer (t : trieStorageManager) :
    (safeCloserClose t).mainStorer = t.mainStorer := by
  unfold safeCloserClose; split <;> rfl

theorem safeCloserClose_checkpointsStorer (t : trieStorageManager) :
    (safeCloserClose t).checkpointsStorer = t.checkpointsStorer := by
  unfold safeCloserClose; split <;> rfl

theorem safeCloserClose_snapshots (t : trieStorageManager) :
    (safeCloserClose t).snapshots = t.snapshots := by
  unfold safeCloserClose; split <;> rfl

theorem safeCloserClose_closerFired (t : trieStorageManager) :
    (safeCloserClose t).closerFired = true := by
  unfold safeCloserClose
  by_cases h : t.closerFired <;> simp [h]

theorem safeCloserClose_closerFireCount (t : trieStorageManager) :
    (safeCloserClose t).closerFireCount
      = (if t.closerFired then t.closerFireCount else t.closerFireCount + 1) := by
  unfold safeCloserClose
  by_cases h : t.closerFired <;> simp [h]

theorem Persister.closeCount_close (p : Persister) :
    ((p.Close).1).closeCount = p.closeCount + 1 := rfl

theorem Persister.close_snd (p : Persister) :
    (p.Close).2 = p.nextCloseErr := rfl

/-- C7: `Close` attempts to close every owned resource in the order legacy
storer, each snapshot database, main storer, checkpoints storer, never
stopping early (each persister's close counter rises by exactly one no matter
which closes fail); it returns `none` exactly when every close succeeded, and
otherwise a wrapped (`closeFailed`) error around a persister failure. -/
theorem close_order_and_error (tsm : trieStorageManager) :
    (tsm.Close).2.1
      = .legacyDbClose :: (List.replicate tsm.snapshots.length CloseEvent.snapshotClose
          ++ [.mainStorerClose, .checkpointsStorerClose]) ∧
    (tsm.Close).1.db.closeCount = tsm.db.closeCount + 1 ∧
    (tsm.Close).1.snapshots.map Persister.closeCount
      = tsm.snapshots.map (fun p => p.closeCount + 1) ∧
    (tsm.Close).1.mainStorer.closeCount = tsm.mainStorer.closeCount + 1 ∧
    (tsm.Close).1.checkpointsStorer.closeCount = tsm.checkpointsStorer.closeCount + 1 ∧
    ((tsm.Close).2.2 = none ↔
      (tsm.db.nextCloseErr = none ∧ (∀ p ∈ tsm.snapshots, p.nextCloseErr = none) ∧
       tsm.mainStorer.nextCloseErr = none ∧ tsm.checkpointsStorer.nextCloseErr = none)) ∧
    ((tsm.Close).2.2 ≠ none →
      ∃ e, (tsm.Close).2.2 = some (.closeFailed (.persisterErr e))) := by
  refine ⟨?_, ?_, ?_, ?_, ?_, ?_, ?_⟩
  · simp [trieStorageManager.Close, closeAllSnapshots_events]
  · simp [trieStorageManager.Close, safeCloserClose_db, Persister.closeCount_close]
  · simp [trieStorageManager.Close, safeCloserClose_snapshots, closeAllSnapshots_fst,
      Persister.closeCount_close]
  · simp [trieStorageManager.Close, safeCloserClose_mainStorer, Persister.closeCount_close]
  · simp [trieStorageManager.Close, safeCloserClose_checkpointsStorer,
      Persister.closeCount_close]
  · simp only [trieStorageManager.Close, Persister.close_snd, closeAllSnapshots_errs,
      Option.map_eq_none']
    cases hck : tsm.checkpointsStorer.nextCloseErr with
    | some e => simp [hck]
    | none =>
      cases hmain : tsm.mainStorer.nextCloseErr with
      | some e => simp [hmain]
      | none =>
        simp [goErrFold_eq_none_iff]
  · intro h
    obtain ⟨x, hx⟩ := Option.ne_none_iff_exists'.mp h
    simp only [trieStorageManager.Close] at hx
    rw [Option.map_eq_some'] at hx
    obtain ⟨e, he, rfl⟩ := hx
    refine ⟨e, ?_⟩
    simp only [trieStorageManager.Close]
    rw [he]
    rfl

/-- A manager whose main storer fails its first `Close` with error 7. -/
def tsmFailingMainClose : trieStorageManager :=
  { tsmEmpty with
    mainStorer :=
      { store := fun _ => [], getErr := fun _ => none
        closeErrs := fun _ => some 7, closeCount := 0 } }

/-- Witness for `close_order_and_error` on a manager whose main storer close
fails: `Close` returns a non-nil wrapped error. -/
theorem close_order_and_error_witness :
    ((tsmFailingMainClose.Close).2.2 ≠ none) ∧
      ∃ e, (tsmFailingMainClose.Close).2.2
        = some (.closeFailed (.persisterErr e)) :=
  ⟨by decide,
    (close_order_and_error tsmFailingMainClose).2.2.2.2.2.2 (by decide)⟩

/-- C2 counterexample: on a manager with one snapshot database and error-free
persisters, a second `Close` call closes the main storer again — after two
manager `Close` calls its close counter is 2, not the 1 the claim requires. -/
theorem close_twice_recloses_counterexample :
    ((({ tsmEmpty with snapshots := [emptyPersister] }.Close).1.Close).1).mainStorer.closeCount = 2 ∧
    ¬ ((({ tsmEmpty with snapshots := [emptyPersister] }.Close).1.Close).1).mainStorer.closeCount = 1 := by
  constructor <;> decide

/-- C2 (amended): a second `Close` call re-invokes `Close` on the legacy
storer, every snapshot database, the main storer and the checkpoints storer
(after two manager `Close` calls each close counter has risen by exactly
two), but the closer signal fires at most once over the two calls — the
second call does not re-fire it. -/
theorem close_twice_effects (tsm : trieStorageManager) :
    (((tsm.Close).1.Close).1).db.closeCount = tsm.db.closeCount + 2 ∧
    (((tsm.Close).1.Close).1).mainStorer.closeCount = tsm.mainStorer.closeCount + 2 ∧
    (((tsm.Close).1.Close).1).checkpointsStorer.closeCount
      = tsm.checkpointsStorer.closeCount + 2 ∧
    (((tsm.Close).1.Close).1).snapshots.map Persister.closeCount
      = tsm.snapshots.map (fun p => p.closeCount + 2) ∧
    ((tsm.Close).1).closerFired = true ∧
    (((tsm.Close).1.Close).1).closerFireCount
      = (if tsm.closerFired then tsm.closerFireCount else tsm.closerFireCount + 1) := by
  refine ⟨?_, ?_, ?_, ?_, ?_, ?_⟩
  · simp [trieStorageManager.Close, safeCloserClose_db, Persister.closeCount_close]
  · simp [trieStorageManager.Close, safeCloserClose_mainStorer, Persister.closeCount_close]
  · simp [trieStorageManager.Close, safeCloserClose_checkpointsStorer,
      Persister.closeCount_close]
  · simp [trieStorageManager.Close, safeCloserClose_snapshots, closeAllSnapshots_fst,
      Persister.closeCount_close]
  · simp [trieStorageManager.Close, safeCloserClose_closerFired]
  · simp [trieStorageManager.Close, safeCloserClose_closerFireCount,
      safeCloserClose_closerFired]

/-- Outcomes of one snapshot request served by the worker: the root node
decode can fail, building the snapshot trie storage manager view can fail, or
the external `commitSnapshot` walk returns success, `ErrContextClosing`, or
some other error.  The walk itself is an external collaborator, so its result
is an input of the model. -/
inductive SnapshotOutcome where
  | decodeErr : SnapshotOutcome
  | stsmErr : SnapshotOutcome
  | commitOk : SnapshotOutcome
  | commitContextClosing : SnapshotOutcome
  | commitOtherErr : SnapshotOutcome
deriving DecidableEq

/-- Outcomes of one checkpoint request (no snapshot-view construction step). -/
inductive CheckpointOutcome where
  | decodeErr : CheckpointOutcome
  | commitOk : CheckpointOutcome
  | commitContextClosing : CheckpointOutcome
  | commitOtherErr : CheckpointOutcome
deriving DecidableEq

namespace trieStorageManager

/-- `finishOperation` (the worker's deferred completion): exit pruning
buffering mode and safely close the entry's leaves channel. -/
def finishOperation (tsm : trieStorageManager) (entry : snapshotsQueueEntry) :
    trieStorageManager × Nat :=
  (tsm.ExitPruningBufferingMode, safelyCloseChan entry.hasLeavesChan)

/-- The worker's `takeSnapshot`: the body logs an error on decode failure, on
snapshot-view construction failure, and on any commit error other than
`ErrContextClosing` (which is logged at debug level only); `finishOperation`
runs on every path via `defer`. -/
def takeSnapshot (tsm : trieStorageManager) (entry : snapshotsQueueEntry)
    (outcome : SnapshotOutcome) : trieStorageManager × Nat :=
  let body :=
    match outcome with
    | .decodeErr => { tsm with errorLogCount := tsm.errorLogCount + 1 }
    | .stsmErr => { tsm with errorLogCount := tsm.errorLogCount + 1 }
    | .commitOk => tsm
    | .commitContextClosing => tsm
    | .commitOtherErr => { tsm with errorLogCount := tsm.errorLogCount + 1 }
  body.finishOperation entry

/-- The worker's `takeCheckpoint`: same completion discipline as
`takeSnapshot`, without the snapshot-view construction step. -/
def takeCheckpoint (tsm : trieStorageManager) (entry : snapshotsQueueEntry)
    (outcome : CheckpointOutcome) : trieStorageManager × Nat :=
  let body :=
    match outcome with
    | .decodeErr => { tsm with errorLogCount := tsm.errorLogCount + 1 }
    | .commitOk => tsm
    | .commitContextClosing => tsm
    | .commitOtherErr => { tsm with errorLogCount := tsm.errorLogCount + 1 }
  body.finishOperation entry

end trieStorageManager

/-- The number of error-severity log lines one snapshot outcome produces. -/
def SnapshotOutcome.errorLogs : SnapshotOutcome → Nat
  | .commitOk => 0
  | .commitContextClosing => 0
  | _ => 1

/-- The number of error-severity log lines one checkpoint outcome produces. -/
def CheckpointOutcome.errorLogs : CheckpointOutcome → Nat
  | .commitOk => 0
  | .commitContextClosing => 0
  | _ => 1

/-- C8: whatever the traversal outcome, the worker's `takeSnapshot` and
`takeCheckpoint` decrement the pruning-block counter exactly once and close
the request's non-nil leaves channel exactly once; `ErrContextClosing` is not
logged as an error, while decode and other traversal failures each log
exactly one error. -/
theorem worker_completion_effects (tsm : trieStorageManager)
    (entry : snapshotsQueueEntry) (so : SnapshotOutcome) (co : CheckpointOutcome)
    (h : 0 < tsm.pruningBlockingOps) :
    (tsm.takeSnapshot entry so).1.pruningBlockingOps = tsm.pruningBlockingOps - 1 ∧
    (tsm.takeSnapshot entry so).2 = (if entry.hasLeavesChan then 1 else 0) ∧
    (tsm.takeSnapshot entry so).1.errorLogCount = tsm.errorLogCount + so.errorLogs ∧
    (tsm.takeCheckpoint entry co).1.pruningBlockingOps = tsm.pruningBlockingOps - 1 ∧
    (tsm.takeCheckpoint entry co).2 = (if entry.hasLeavesChan then 1 else 0) ∧
    (tsm.takeCheckpoint entry co).1.errorLogCount = tsm.errorLogCount + co.errorLogs := by
  have hn : ¬ tsm.pruningBlockingOps < 1 := by omega
  refine ⟨?_, ?_, ?_, ?_, ?_, ?_⟩ <;>
    first
      | (cases so <;>
          simp [trieStorageManager.takeSnapshot, trieStorageManager.finishOperation,
            trieStorageManager.ExitPruningBufferingMode, safelyCloseChan,
            SnapshotOutcome.errorLogs, hn])
      | (cases co <;>
          simp [trieStorageManager.takeCheckpoint, trieStorageManager.finishOperation,
            trieStorageManager.ExitPruningBufferingMode, safelyCloseChan,
            CheckpointOutcome.errorLogs, hn])

/-- Witness for `worker_completion_effects`: a counter of 1, a non-nil leaves
channel and a `ContextClosing` outcome — the counter drops to 0, the channel
is closed once, and nothing is logged as an error. -/
theorem worker_completion_effects_witness :
    (0 < ({ tsmEmpty with pruningBlockingOps := 1 }).pruningBlockingOps) ∧
      ({ tsmEmpty with pruningBlockingOps := 1 }.takeSnapshot ⟨[1], false, true⟩
        SnapshotOutcome.commitContextClosing).1.pruningBlockingOps = 0 :=
  ⟨by decide,
    (worker_completion_effects { tsmEmpty with pruningBlockingOps := 1 }
      ⟨[1], false, true⟩ SnapshotOutcome.commitContextClosing
      CheckpointOutcome.commitOk (by decide)).1⟩

/-- One immediate child of the snapshot directory, as `ioutil.ReadDir`
reports it: its name and whether it is a directory. -/
structure FsEntry where
  name : String
  isDir : Bool

/-- The filesystem as snapshot discovery observes it: whether the snapshot
directory exists, the directory listing (`none` models a `ReadDir` error),
and whether opening a persister under a given child name succeeds. -/
structure SnapshotDirFs where
  dirExists : Bool
  readDir : Option (List FsEntry)
  newDbOk : String → Bool

/-- The error positions of `getSnapshotsAndSnapshotId`: the `ReadDir` call,
the `strconv.Atoi` parse of a child directory name, or `storageUnit.NewDB`. -/
inductive DiscoveryErr where
  | readDirErr : DiscoveryErr
  | atoiErr : String → DiscoveryErr
  | newDbErr : String → DiscoveryErr
deriving DecidableEq

/-- The value of an all-digit suffix, `none` when a non-digit occurs. -/
def digitsVal : List Char → Nat → Option Nat
  | [], acc => some acc
  | c :: rest, acc =>
    if c.isDigit then digitsVal rest (acc * 10 + (c.toNat - 48)) else none

/-- `strconv.Atoi`: an optional sign followed by at least one digit (overflow
is ignored — snapshot ids are small). -/
def atoi (s : String) : Option Int :=
  match s.data with
  | [] => none
  | '-' :: rest =>
    if rest = [] then none else (digitsVal rest 0).map fun n => -(n : Int)
  | '+' :: rest =>
    if rest = [] then none else (digitsVal rest 0).map fun n => (n : Int)
  | cs => (digitsVal cs 0).map fun n => (n : Int)

/-- Insertion into `snapshotsMap`, modelled as its key list; a snapshot
database handler carries no observable data beyond its id, so the map is
identified with its key set (a repeated key overwrites, leaving the set
unchanged). -/
def mapInsert (m : List Int) (k : Int) : List Int :=
  if k ∈ m then m else m ++ [k]

/-- `getOrderedSnapshots`: the map's handlers ordered by ascending key
(`sort.Ints` on the keys). -/
def getOrderedSnapshots (snapshotsMap : List Int) : List Int :=
  List.insertionSort (· ≤ ·) snapshotsMap

/-- The `for _, f := range files` loop of `getSnapshotsAndSnapshotId`,
carrying the accumulated map and the running `snapshotId`: non-directories
are skipped; a name that fails `Atoi` or a failing `NewDB` returns the
snapshots so far with the current id and an error; otherwise the id is raised
to the name's value when larger and the snapshot is recorded.  After a full
pass, the id is incremented when at least one snapshot was found. -/
def discoveryLoop (newDbOk : String → Bool) :
    List FsEntry → List Int → Int → List Int × Int × Option DiscoveryErr
  | [], m, sid =>
    (getOrderedSnapshots m, if m.length ≠ 0 then sid + 1 else sid, none)
  | f :: rest, m, sid =>
    if !f.isDir then discoveryLoop newDbOk rest m sid
    else
      match atoi f.name with
      | none => (getOrderedSnapshots m, sid, some (.atoiErr f.name))
      | some snapshotName =>
        if !newDbOk f.name then
          (getOrderedSnapshots m, sid, some (.newDbErr f.name))
        else
          discoveryLoop newDbOk rest (mapInsert m snapshotName)
            (if snapshotName > sid then snapshotName else sid)

/-- `getSnapshotsAndSnapshotId`: empty result without error when the snapshot
directory does not exist; a `ReadDir` failure yields the empty result with
that error; otherwise the discovery loop over the listing. -/
def getSnapshotsAndSnapshotId (fs : SnapshotDirFs) :
    List Int × Int × Option DiscoveryErr :=
  if !fs.dirExists then (getOrderedSnapshots [], 0, none)
  else
    match fs.readDir with
    | none => (getOrderedSnapshots [], 0, some .readDirErr)
    | some files => discoveryLoop fs.newDbOk files [] 0

/-- The running maximum Go keeps in `snapshotId`: the largest id seen so far,
floored at the initial value 0. -/
def maxId (l : List Int) : Int := l.foldl max 0

/-- A filesystem whose snapshot directory holds a child directory `5` and a
child directory `abc` whose name does not parse. -/
def fsC4 : SnapshotDirFs :=
  { dirExists := true
    readDir := some [⟨"5", true⟩, ⟨"abc", true⟩]
    newDbOk := fun _ => true }

/-- C4 counterexample: on the `Atoi` early-return path the discovery stops
with snapshot id 5 recorded and next id 5 — the `snapshotId++` never runs, so
the next id is not strictly greater than every discovered id and is not
`max + 1`. -/
theorem discovery_early_return_counterexample :
    (getSnapshotsAndSnapshotId fsC4).1 = [5] ∧
    (getSnapshotsAndSnapshotId fsC4).2.1 = 5 ∧
    (getSnapshotsAndSnapshotId fsC4).2.2 ≠ none ∧
    ¬ (5 < (getSnapshotsAndSnapshotId fsC4).2.1) := by
  refine ⟨?_, ?_, ?_, ?_⟩ <;> decide

theorem le_foldl_max : ∀ (l : List Int) (b : Int), b ≤ List.foldl max b l
  | [], _ => le_refl _
  | c :: l, b => le_trans (le_max_left b c) (le_foldl_max l (max b c))

theorem mem_le_foldl_max : ∀ (l : List Int) (b n : Int), n ∈ l → n ≤ List.foldl max b l
  | c :: l, b, n, h => by
    rcases List.mem_cons.mp h with rfl | h'
    · exact le_trans (le_max_right b n) (le_foldl_max l (max b n))
    · exact mem_le_foldl_max l (max b c) n h'

theorem mem_le_maxId {n : Int} {l : List Int} (h : n ∈ l) : n ≤ maxId l :=
  mem_le_foldl_max l 0 n h

theorem foldl_max_perm {l l' : List Int} (h : l.Perm l') :
    ∀ b : Int, List.foldl max b l = List.foldl max b l' := by
  induction h with
  | nil => intro b; rfl
  | cons x _ ih => intro b; simp only [List.foldl_cons]; exact ih (max b x)
  | swap x y l => intro b; simp only [List.foldl_cons]; rw [sup_right_comm]
  | trans _ _ ih1 ih2 => intro b; rw [ih1 b, ih2 b]

theorem maxId_getOrderedSnapshots (m : List Int) :
    maxId (getOrderedSnapshots m) = maxId m :=
  foldl_max_perm (List.perm_insertionSort (· ≤ ·) m) 0

theorem maxId_append_singleton (l : List Int) (n : Int) :
    maxId (l ++ [n]) = max (maxId l) n := by
  simp [maxId, List.foldl_append]

theorem mem_mapInsert {k : Int} (m : List Int) (n : Int) :
    k ∈ mapInsert m n ↔ k ∈ m ∨ k = n := by
  unfold mapInsert
  by_cases h : n ∈ m
  · simp only [h, if_true]
    constructor
    · exact Or.inl
    · rintro (hk | rfl)
      · exact hk
      · exact h
  · simp [h]

theorem mapInsert_nodup {m : List Int} (n : Int) (h : m.Nodup) :
    (mapInsert m n).Nodup := by
  unfold mapInsert
  by_cases hn : n ∈ m
  · simpa [hn] using h
  · simp [hn, List.nodup_append, h, List.disjoint_singleton]

theorem maxId_mapInsert (m : List Int) (n : Int) :
    maxId (mapInsert m n) = max (maxId m) n := by
  unfold mapInsert
  by_cases h : n ∈ m
  · simp only [h, if_true]
    exact (max_eq_left (mem_le_maxId h)).symm
  · simp [h, maxId_append_singleton]

theorem ite_gt_eq_max (sid n : Int) : (if n > sid then n else sid) = max sid n := by
  by_cases h : n > sid
  · simp [h, max_eq_right h.le]
  · simp [h, max_eq_left (not_lt.mp h)]

theorem sorted_getOrderedSnapshots {m : List Int} (h : m.Nodup) :
    List.Sorted (· < ·) (getOrderedSnapshots m) := by
  refine List.Sorted.lt_of_le (List.sorted_insertionSort (· ≤ ·) m) ?_
  exact ((List.perm_insertionSort (· ≤ ·) m).nodup_iff).mpr h

theorem getOrderedSnapshots_eq_nil_iff (m : List Int) :
    getOrderedSnapshots m = [] ↔ m = [] := by
  constructor
  · intro h
    have := (List.perm_insertionSort (· ≤ ·) m).length_eq
    rw [show getOrderedSnapshots m = List.insertionSort (· ≤ ·) m from rfl] at h
    rw [h] at this
    exact List.length_eq_zero.mp this.symm
  · rintro rfl; rfl

/-- Full characterization of the discovery loop, by induction over the
directory listing: the returned list is strictly sorted; when the loop
completes without error the returned id is 0 for an empty result and
`maxId + 1` otherwise; on the early-return error paths the returned id is
exactly `maxId` of the snapshots discovered so far (without the increment). -/
theorem discoveryLoop_spec (newDbOk : String → Bool) (files : List FsEntry) :
    ∀ (m : List Int) (sid : Int), sid = maxId m → m.Nodup →
      List.Sorted (· < ·) (discoveryLoop newDbOk files m sid).1 ∧
      ((discoveryLoop newDbOk files m sid).2.2 = none →
        (discoveryLoop newDbOk files m sid).2.1
          = if (discoveryLoop newDbOk files m sid).1 = [] then 0
            else maxId (discoveryLoop newDbOk files m sid).1 + 1) ∧
      ((discoveryLoop newDbOk files m sid).2.2 ≠ none →
        (discoveryLoop newDbOk files m sid).2.1
          = maxId (discoveryLoop newDbOk files m sid).1) := by
  induction files with
  | nil =>
    intro m sid hsid hnd
    refine ⟨sorted_getOrderedSnapshots hnd, ?_, ?_⟩
    · intro _
      by_cases hm : m = []
      · subst hm
        simp [discoveryLoop, getOrderedSnapshots, hsid, maxId]
      · have hlen : m.length ≠ 0 := fun hc => hm (List.length_eq_zero.mp hc)
        have hnil : ¬ getOrderedSnapshots m = [] :=
          fun hc => hm ((getOrderedSnapshots_eq_nil_iff m).mp hc)
        simp [discoveryLoop, hlen, hnil, hsid, maxId_getOrderedSnapshots]
    · intro h
      exact absurd rfl h
  | cons f rest ih =>
    intro m sid hsid hnd
    by_cases hdir : f.isDir
    · simp only [discoveryLoop, hdir, Bool.not_true, Bool.false_eq_true, if_false]
      cases hat : atoi f.name with
      | none =>
        refine ⟨sorted_getOrderedSnapshots hnd, ?_, ?_⟩
        · intro hc
          exact absurd hc (by simp)
        · intro _
          simp [hsid, maxId_getOrderedSnapshots]
      | some n =>
        by_cases hok : newDbOk f.name
        · simp only [hok, Bool.not_true, Bool.false_eq_true, if_false]
          refine ih (mapInsert m n) _ ?_ (mapInsert_nodup n hnd)
          rw [ite_gt_eq_max, hsid, maxId_mapInsert]
        · simp only [hok, Bool.not_false, if_true]
          refine ⟨sorted_getOrderedSnapshots hnd, ?_, ?_⟩
          · intro hc
            exact absurd hc (by simp)
          · intro _
            simp [hsid, maxId_getOrderedSnapshots]
    · simp only [discoveryLoop, hdir, Bool.not_false, if_true]
      exact ih m sid hsid hnd

/-- C4 (amended): the returned snapshot list is always sorted by strictly
increasing id, on every path.  When discovery completes without error the
next id is 0 if no snapshot was discovered and `maxId + 1` otherwise (`maxId`
floors at 0, matching the running `snapshotId` of the code), and the next id
is strictly greater than every discovered id.  On the early-return error
paths, however, the next id is `maxId` of the snapshots discovered so far —
the final increment is skipped, so it can equal a discovered id. -/
theorem discovery_sorted_and_next_id (fs : SnapshotDirFs) :
    List.Sorted (· < ·) (getSnapshotsAndSnapshotId fs).1 ∧
    ((getSnapshotsAndSnapshotId fs).2.2 = none →
      (getSnapshotsAndSnapshotId fs).2.1
        = if (getSnapshotsAndSnapshotId fs).1 = [] then 0
          else maxId (getSnapshotsAndSnapshotId fs).1 + 1) ∧
    ((getSnapshotsAndSnapshotId fs).2.2 = none →
      ∀ id ∈ (getSnapshotsAndSnapshotId fs).1, id < (getSnapshotsAndSnapshotId fs).2.1) ∧
    ((getSnapshotsAndSnapshotId fs).2.2 ≠ none →
      (getSnapshotsAndSnapshotId fs).2.1 = maxId (getSnapshotsAndSnapshotId fs).1) := by
  have hmem : ((getSnapshotsAndSnapshotId fs).2.2 = none →
      (getSnapshotsAndSnapshotId fs).2.1
        = if (getSnapshotsAndSnapshotId fs).1 = [] then 0
          else maxId (getSnapshotsAndSnapshotId fs).1 + 1) →
      ((getSnapshotsAndSnapshotId fs).2.2 = none →
      ∀ id ∈ (getSnapshotsAndSnapshotId fs).1, id < (getSnapshotsAndSnapshotId fs).2.1) := by
    intro hch herr id hid
    have hne : (getSnapshotsAndSnapshotId fs).1 ≠ [] := by
      intro hc; rw [hc] at hid; exact absurd hid (List.not_mem_nil id)
    rw [hch herr, if_neg hne]
    exact lt_of_le_of_lt (mem_le_maxId hid) (lt_add_one _)
  unfold getSnapshotsAndSnapshotId
  by_cases hdir : fs.dirExists
  · simp only [hdir, Bool.not_true, Bool.false_eq_true, if_false]
    cases hrd : fs.readDir with
    | none =>
      refine ⟨List.sorted_nil, ?_, ?_, ?_⟩
      · intro hc; exact absurd hc (by simp)
      · intro hc; exact absurd hc (by simp)
      · intro _; rfl
    | some files =>
      obtain ⟨hs, hch, herrch⟩ :=
        discoveryLoop_spec fs.newDbOk files [] 0 rfl List.nodup_nil
      refine ⟨hs, hch, ?_, herrch⟩
      intro herr id hid
      have hne : (discoveryLoop fs.newDbOk files [] 0).1 ≠ [] := by
        intro hc; rw [hc] at hid; exact absurd hid (List.not_mem_nil id)
      rw [hch herr, if_neg hne]
      exact lt_of_le_of_lt (mem_le_maxId hid) (lt_add_one _)
  · simp only [hdir, Bool.not_false, if_true]
    refine ⟨List.sorted_nil, ?_, ?_, ?_⟩
    · intro _; rfl
    · intro _ id hid; exact absurd hid (List.not_mem_nil id)
    · intro hc; exact absurd rfl hc

/-- A filesystem with a single snapshot directory `2` and no failures. -/
def fsOk : SnapshotDirFs :=
  { dirExists := true, readDir := some [⟨"2", true⟩], newDbOk := fun _ => true }

/-- Witness for `discovery_sorted_and_next_id` on `fsOk`: discovery succeeds
with snapshot list `[2]` and next id `maxId [2] + 1 = 3`. -/
theorem discovery_sorted_and_next_id_witness :
    (getSnapshotsAndSnapshotId fsOk).2.2 = none ∧
      (getSnapshotsAndSnapshotId fsOk).2.1
        = if (getSnapshotsAndSnapshotId fsOk).1 = [] then 0
          else maxId (getSnapshotsAndSnapshotId fsOk).1 + 1 :=
  ⟨by decide, (discovery_sorted_and_next_id fsOk).2.1 (by decide)⟩

theorem discoveryLoop_mem_mono (newDbOk : String → Bool) (files : List FsEntry) :
    ∀ (m : List Int) (sid k : Int), k ∈ m →
      k ∈ (discoveryLoop newDbOk files m sid).1 := by
  have hsorted : ∀ (m : List Int) (k : Int), k ∈ m → k ∈ getOrderedSnapshots m :=
    fun m k hk => ((List.perm_insertionSort (· ≤ ·) m).mem_iff).mpr hk
  induction files with
  | nil => intro m sid k hk; exact hsorted m k hk
  | cons f rest ih =>
    intro m sid k hk
    by_cases hdir : f.isDir
    · simp only [discoveryLoop, hdir, Bool.not_true, Bool.false_eq_true, if_false]
      cases hat : atoi f.name with
      | none => exact hsorted m k hk
      | some n =>
        by_cases hok : newDbOk f.name
        · simp only [hok, Bool.not_true, Bool.false_eq_true, if_false]
          exact ih _ _ k ((mem_mapInsert m n).mpr (Or.inl hk))
        · simp only [hok, Bool.not_false, if_true]
          exact hsorted m k hk
    · simp only [discoveryLoop, hdir, Bool.not_false, if_true]
      exact ih m sid k hk

theorem discoveryLoop_mem (newDbOk : String → Bool) (files : List FsEntry) :
    ∀ (m : List Int) (sid : Int),
      (discoveryLoop newDbOk files m sid).2.2 = none →
      ∀ f ∈ files, f.isDir = true → ∀ n, atoi f.name = some n →
        n ∈ (discoveryLoop newDbOk files m sid).1 := by
  induction files with
  | nil => intro m sid _ f hf; exact absurd hf (List.not_mem_nil f)
  | cons g rest ih =>
    intro m sid herr f hf hdir n hat
    rcases List.mem_cons.mp hf with rfl | hf'
    · simp only [discoveryLoop, hdir, Bool.not_true, Bool.false_eq_true, if_false] at herr ⊢
      rw [hat] at herr ⊢
      by_cases hok : newDbOk f.name
      · simp only [hok, Bool.not_true, Bool.false_eq_true, if_false] at herr ⊢
        exact discoveryLoop_mem_mono newDbOk rest _ _ n
          ((mem_mapInsert m n).mpr (Or.inr rfl))
      · simp [hok] at herr
    · by_cases hgdir : g.isDir
      · simp only [discoveryLoop, hgdir, Bool.not_true, Bool.false_eq_true,
          if_false] at herr ⊢
        cases hgat : atoi g.name with
        | none => rw [hgat] at herr; simp at herr
        | some n' =>
          rw [hgat] at herr
          by_cases hok : newDbOk g.name
          · simp only [hok, Bool.not_true, Bool.false_eq_true, if_false] at herr ⊢
            exact ih _ _ herr f hf' hdir n hat
          · simp [hok] at herr
      · simp only [discoveryLoop, hgdir, Bool.not_false, if_true] at herr ⊢
        exact ih m sid herr f hf' hdir n hat

theorem discoveryLoop_abort (newDbOk : String → Bool) (files : List FsEntry) :
    ∀ (m : List Int) (sid : Int) (f : FsEntry), f ∈ files → f.isDir = true →
      atoi f.name = none → (discoveryLoop newDbOk files m sid).2.2 ≠ none := by
  induction files with
  | nil => intro m sid f hf; exact absurd hf (List.not_mem_nil f)
  | cons g rest ih =>
    intro m sid f hf hdir hat
    rcases List.mem_cons.mp hf with rfl | hf'
    · simp only [discoveryLoop, hdir, Bool.not_true, Bool.false_eq_true, if_false]
      rw [hat]
      simp
    · by_cases hgdir : g.isDir
      · simp only [discoveryLoop, hgdir, Bool.not_true, Bool.false_eq_true, if_false]
        cases hgat : atoi g.name with
        | none => simp
        | some n' =>
          by_cases hok : newDbOk g.name
          · simp only [hok, Bool.not_true, Bool.false_eq_true, if_false]
            exact ih _ _ f hf' hdir hat
          · simp [hok]
      · simp only [discoveryLoop, hgdir, Bool.not_false, if_true]
        exact ih m sid f hf' hdir hat

/-- C9: discovery on a non-existent snapshot directory returns the empty list
and next id 0 without error; a non-directory child at the front of the
listing is skipped silently (the result is that of the remaining listing);
when the directory exists and discovery completes without error, every child
directory whose name parses as a non-negative integer is in the returned
snapshot list; and a child directory whose name fails to parse makes
discovery return an error. -/
theorem discovery_entry_handling (fs : SnapshotDirFs) :
    (fs.dirExists = false → getSnapshotsAndSnapshotId fs = ([], 0, none)) ∧
    (∀ e rest, fs.readDir = some (e :: rest) → e.isDir = false →
      getSnapshotsAndSnapshotId fs
        = getSnapshotsAndSnapshotId { fs with readDir := some rest }) ∧
    (∀ files, fs.dirExists = true → fs.readDir = some files →
      (getSnapshotsAndSnapshotId fs).2.2 = none →
      ∀ f ∈ files, f.isDir = true → ∀ n, atoi f.name = some n → 0 ≤ n →
        n ∈ (getSnapshotsAndSnapshotId fs).1) ∧
    (∀ files f, fs.dirExists = true → fs.readDir = some files → f ∈ files →
      f.isDir = true → atoi f.name = none →
      (getSnapshotsAndSnapshotId fs).2.2 ≠ none) := by
  refine ⟨?_, ?_, ?_, ?_⟩
  · intro h
    simp [getSnapshotsAndSnapshotId, h]
    rfl
  · intro e rest hrd hedir
    by_cases hdir : fs.dirExists
    · simp only [getSnapshotsAndSnapshotId, hdir, Bool.not_true, Bool.false_eq_true,
        if_false, hrd]
      simp only [discoveryLoop, hedir, Bool.not_false, if_true]
    · simp [getSnapshotsAndSnapshotId, hdir]
  · intro files hdir hrd herr f hf hfdir n hat _
    simp only [getSnapshotsAndSnapshotId, hdir, Bool.not_true, Bool.false_eq_true,
      if_false, hrd] at herr ⊢
    exact discoveryLoop_mem fs.newDbOk files [] 0 herr f hf hfdir n hat
  · intro files f hdir hrd hf hfdir hat
    simp only [getSnapshotsAndSnapshotId, hdir, Bool.not_true, Bool.false_eq_true,
      if_false, hrd]
    exact discoveryLoop_abort fs.newDbOk files [] 0 f hf hfdir hat

/-- A filesystem whose snapshot directory does not exist. -/
def fsAbsent : SnapshotDirFs :=
  { dirExists := false, readDir := none, newDbOk := fun _ => true }

/-- Witness for `discovery_entry_handling`: on the absent directory,
discovery returns the empty list, next id 0 and no error. -/
theorem discovery_entry_handling_witness :
    fsAbsent.dirExists = false ∧ getSnapshotsAndSnapshotId fsAbsent = ([], 0, none) :=
  ⟨rfl, (discovery_entry_handling fsAbsent).1 rfl⟩

end TrieStorage
